import Mathlib

/-!
Shallow embedding of `matrix.go` from jfa-go's Matrix bot daemon.

The daemon keeps three in-memory maps (tokens, languages, isEncrypted) plus
the persisted user store `app.storage.matrix`; these are modelled as
association lists inside `DaemonState`.  External collaborators that are not
part of this file's source (the homeserver client `gomatrix`, the crypto
layer `SendEncrypted` / `EncryptRoom` / `CryptoShutdown`, the token generator
`genAuthToken`, the language catalog `app.storage.lang.Telegram`, the
markdown renderer and the persistent store `storeMatrixUsers`) are modelled
as oracle fields of an `Env` record: each oracle supplies the outcome the
collaborator would return.  Side effects performed through collaborators are
recorded in a `List Effect` trace so that routing and call-count properties
can be stated.  A Go panic (type assertion failure, close of a closed
channel) is modelled as `none` in an `Option` result.
-/

namespace JfaGo

abbrev RoomID := String
abbrev UserID := String

/-- Raw dynamic value held in an event's content map (`evt.Content.Raw`).
Go stores `interface{}` values; only string-typed bodies are cast
successfully by `handleMessage`. -/
inductive RawValue where
  | str (s : String)
  | other
  deriving Repr, DecidableEq

/-- Mirrors the Go struct `MatrixUser`. -/
structure MatrixUser where
  RoomID : String
  Encrypted : Bool
  UserID : String
  Lang : String
  Contact : Bool
  deriving Repr, DecidableEq

/-- Mirrors the Go struct `UnverifiedUser` (the pointer indirection of
`User *MatrixUser` is dropped: nothing in this file aliases it). -/
structure UnverifiedUser where
  Verified : Bool
  User : MatrixUser
  deriving Repr, DecidableEq

/-- Outbound message handed to `Send` (fields of the jfa-go `Message` used
by `matrix.go`). -/
structure Message where
  Text : String
  Markdown : String
  deriving Repr, DecidableEq

/-- Mirrors `event.MessageEventContent` as populated by this file. -/
structure MessageEventContent where
  MsgType : String
  Body : String
  FormattedBody : String
  Format : String
  deriving Repr, DecidableEq

/-- Incoming room event, restricted to the fields `handleMessage` reads. -/
structure IncomingEvent where
  Timestamp : Int
  Sender : UserID
  RoomID : RoomID
  Content : List (String × RawValue)
  deriving Repr, DecidableEq

/-- The mutable state of `MatrixDaemon`: its three maps, the persisted
user store it reads and writes through `d.app.storage.matrix`, the shutdown
channel (open = not yet closed), and the start timestamp. -/
structure DaemonState where
  Stopped : Bool
  ShutdownChannelOpen : Bool
  userID : UserID
  tokens : List (String × UnverifiedUser)
  languages : List (RoomID × String)
  isEncrypted : List (RoomID × Bool)
  storageMatrix : List (String × MatrixUser)
  start : Int
  deriving Repr, DecidableEq

/-- Go map assignment `m[k] = v`: insert or replace. -/
def mapInsert {β : Type} (m : List (String × β)) (k : String) (v : β) :
    List (String × β) :=
  (k, v) :: m.filter (fun p => p.1 != k)

theorem lookup_mapInsert {β : Type} (m : List (String × β)) (k : String) (v : β) :
    (mapInsert m k v).lookup k = some v := by
  simp [mapInsert, List.lookup]

/-- Observable calls made to external collaborators, in program order. -/
inductive Effect where
  | createRoom (userID : UserID)
  | sendEncrypted (roomID : RoomID) (body : String)
  | sendPlain (roomID : RoomID) (body : String)
  | sendText (roomID : RoomID) (body : String)
  | storeMatrixUsers
  | logError (msg : String)
  | printRecv
  | cryptoShutdown
  | stopSync
  deriving Repr, DecidableEq

/-- Oracle for the external collaborators: each field gives the result the
corresponding call would return.  `none` for an `Option String` means the
call succeeds; `some e` is the error it returns. -/
structure Env where
  createRoomResult : UserID → Except String (RoomID × Bool)
  genAuthToken : String
  sendEncryptedResult : RoomID → Option String
  sendPlainResult : RoomID → Option String
  sendTextResult : RoomID → Option String
  storeMatrixUsersResult : Option String
  langCatalog : List (String × String)
  strGet : String → String → String
  strTemplate : String → String → String
  markdownToHTML : String → String

/-- Model of `(d *MatrixDaemon) send`: consult `d.isEncrypted[roomID]`; if present and
true, deliver through `SendEncrypted`, otherwise through the plaintext
`bot.SendMessageEvent`. -/
def send (env : Env) (d : DaemonState) (content : MessageEventContent)
    (roomID : RoomID) : Option String × List Effect :=
  match d.isEncrypted.lookup roomID with
  | some true => (env.sendEncryptedResult roomID,
      [Effect.sendEncrypted roomID content.Body])
  | _ => (env.sendPlainResult roomID, [Effect.sendPlain roomID content.Body])

/-- Error component of a delivery routed by `send`, determined by the
`isEncrypted` cache alone. -/
def routeErr (env : Env) (d : DaemonState) (roomID : RoomID) : Option String :=
  match d.isEncrypted.lookup roomID with
  | some true => env.sendEncryptedResult roomID
  | _ => env.sendPlainResult roomID

theorem send_fst (env : Env) (d : DaemonState) (content : MessageEventContent)
    (roomID : RoomID) : (send env d content roomID).1 = routeErr env d roomID := by
  unfold send routeErr
  cases h : d.isEncrypted.lookup roomID with
  | none => rfl
  | some b => cases b <;> rfl

/-- One iteration of the `Send` loop: `user.Encrypted` picks `SendEncrypted`
directly, otherwise `d.send` routes by the cache. -/
def deliverOne (env : Env) (d : DaemonState) (content : MessageEventContent)
    (user : MatrixUser) : Option String × List Effect :=
  if user.Encrypted then
    (env.sendEncryptedResult user.RoomID,
      [Effect.sendEncrypted user.RoomID content.Body])
  else
    send env d content user.RoomID

/-- Error component of one iteration of the `Send` loop for `user`. -/
def deliverErr (env : Env) (d : DaemonState) (user : MatrixUser) : Option String :=
  if user.Encrypted then env.sendEncryptedResult user.RoomID
  else routeErr env d user.RoomID

theorem deliverOne_fst (env : Env) (d : DaemonState)
    (content : MessageEventContent) (user : MatrixUser) :
    (deliverOne env d content user).1 = deliverErr env d user := by
  unfold deliverOne deliverErr
  by_cases h : user.Encrypted
  · simp [h]
  · simp [h, send_fst]

/-- The per-recipient loop of `Send`: deliver to each user in turn,
returning on the first error. -/
def sendToUsers (env : Env) (d : DaemonState) (content : MessageEventContent) :
    List MatrixUser → Option String × List Effect
  | [] => (none, [])
  | user :: rest =>
    match deliverOne env d content user with
    | (some e, effs) => (some e, effs)
    | (none, effs) =>
      let r := sendToUsers env d content rest
      (r.1, effs ++ r.2)

/-- Model of `(d *MatrixDaemon) Send`: render markdown (after rewriting image embeds
to links), build the content, then deliver to each user in turn, stopping at
the first error. -/
def Send (env : Env) (d : DaemonState) (message : Message)
    (users : List MatrixUser) : Option String × List Effect :=
  let md := if message.Markdown ≠ "" then
      env.markdownToHTML (message.Markdown.replace "![" "[")
    else ""
  let content : MessageEventContent :=
    if md ≠ "" then
      { MsgType := "m.text", Body := message.Text, FormattedBody := md,
        Format := "org.matrix.custom.html" }
    else
      { MsgType := "m.text", Body := message.Text, FormattedBody := "",
        Format := "" }
  sendToUsers env d content users

/-- Body of the welcome message built by `SendStart` from the language
catalog strings and the fresh PIN. -/
def welcomeContent (env : Env) (lang pin : String) : MessageEventContent :=
  { MsgType := "m.text"
    Body := env.strGet lang "matrixStartMessage" ++ "\n\n" ++ pin ++ "\n\n" ++
      env.strTemplate lang "languageMessage"
    FormattedBody := ""
    Format := "" }

/-- Model of `(d *MatrixDaemon) SendStart`: create the room (with encryption
negotiation folded into the oracle result, as `EncryptRoom` is external),
store the fresh PIN in `d.tokens`, then send the welcome message; returns
true only when both external steps succeed. -/
def SendStart (env : Env) (d : DaemonState) (userID : UserID) :
    Bool × DaemonState × List Effect :=
  match env.createRoomResult userID with
  | Except.error e =>
    (false, d, [Effect.createRoom userID,
      Effect.logError ("Failed to create room for user \"" ++ userID ++ "\": " ++ e)])
  | Except.ok (roomID, encrypted) =>
    let lang := "en-us"
    let pin := env.genAuthToken
    let newTok : UnverifiedUser :=
      { Verified := false
        User := { RoomID := roomID, Encrypted := encrypted, UserID := userID,
                  Lang := lang, Contact := false } }
    let d1 := { d with tokens := mapInsert d.tokens pin newTok }
    let res := send env d1 (welcomeContent env lang pin) roomID
    match res.1 with
    | some e =>
      (false, d1, Effect.createRoom userID :: res.2 ++
        [Effect.logError ("Matrix: Failed to send welcome message to \"" ++
          userID ++ "\": " ++ e)])
    | none => (true, d1, Effect.createRoom userID :: res.2)

/-- Model of `(d *MatrixDaemon) Shutdown`: `CryptoShutdown`, `StopSync`, set
`Stopped`, then `close(d.ShutdownChannel)`.  Go's `close` on an already
closed channel panics: the first component is `none` in that case. -/
def Shutdown (d : DaemonState) : Option DaemonState × List Effect :=
  if d.ShutdownChannelOpen then
    (some { d with Stopped := true, ShutdownChannelOpen := false },
      [Effect.cryptoShutdown, Effect.stopSync])
  else
    (none, [Effect.cryptoShutdown, Effect.stopSync])

/-- The `!lang` listing text: usage hint then one `code: name` line per
catalog entry (Go iterates the map in unspecified order; the catalog list
order stands in for it). -/
def langList (env : Env) : String :=
  env.langCatalog.foldl (fun acc p => acc ++ p.1 ++ ": " ++ p.2 ++ "\n")
    "!lang <lang>\n"

/-- Model of `(d *MatrixDaemon) commandLang`: empty code sends the listing; an
unrecognized code is silently ignored; a recognized code updates
`d.languages`, and when the room has a stored user, updates it and persists
via `storeMatrixUsers` (failure logged, not rolled back). -/
def commandLang (env : Env) (d : DaemonState) (evt : IncomingEvent)
    (code lang : String) : DaemonState × List Effect :=
  if code = "" then
    match env.sendTextResult evt.RoomID with
    | some e => (d, [Effect.sendText evt.RoomID (langList env),
        Effect.logError ("Matrix: Failed to send message to \"" ++
          evt.Sender ++ "\": " ++ e)])
    | none => (d, [Effect.sendText evt.RoomID (langList env)])
  else if (env.langCatalog.lookup code).isNone then
    (d, [])
  else
    let d1 := { d with languages := mapInsert d.languages evt.RoomID code }
    match d1.storageMatrix.lookup evt.RoomID with
    | some u =>
      let u2 := { u with Lang := code }
      let d2 := { d1 with storageMatrix := mapInsert d1.storageMatrix evt.RoomID u2 }
      match env.storeMatrixUsersResult with
      | some e => (d2, [Effect.storeMatrixUsers,
          Effect.logError ("Matrix: Failed to store Matrix users: " ++ e)])
      | none => (d2, [Effect.storeMatrixUsers])
    | none => (d1, [])

/-- Helper for `stringsSplitSpace`, splitting a character list at every
space, keeping empty fields (the result is never empty). -/
def splitSpaceAux : List Char → List (List Char)
  | [] => [[]]
  | c :: cs =>
    match splitSpaceAux cs with
    | [] => [[c]]
    | t :: ts => if c = ' ' then [] :: t :: ts else (c :: t) :: ts

/-- Go's `strings.Split(s, " ")`: split at every single space, keeping
empty fields; the empty string yields `[""]`. -/
def stringsSplitSpace (s : String) : List String :=
  (splitSpaceAux s.toList).map List.asString

/-- Model of `(d *MatrixDaemon) handleMessage`: drop events older than the daemon
start or sent by the bot itself; otherwise print the received content, cast
the body (`evt.Content.Raw["body"].(string)` — an unchecked assertion whose
failure panics, modelled as `none`), split it on single spaces and dispatch
a leading `!lang` token.  The debug print is recorded as
`Effect.printRecv`; on a panic the trace is not observable. -/
def handleMessage (env : Env) (d : DaemonState) (evt : IncomingEvent) :
    Option (DaemonState × List Effect) :=
  if evt.Timestamp < d.start then
    some (d, [])
  else if evt.Sender = d.userID then
    some (d, [])
  else
    match evt.Content.lookup "body" with
    | some (RawValue.str body) =>
      let lang :=
        match d.languages.lookup evt.RoomID with
        | some l => if (env.langCatalog.lookup l).isSome then l else "en-us"
        | none => "en-us"
      let res :=
        match stringsSplitSpace body with
        | ["!lang", code] => commandLang env d evt code lang
        | "!lang" :: _ => commandLang env d evt "" lang
        | _ => (d, [])
      some (res.1, Effect.printRecv :: res.2)
    | _ => none

/-! ## Concrete fixtures for witnesses and counterexamples -/

/-- An environment where every external call succeeds; catalog knows
`en-us` and `fr`. -/
def envOk : Env :=
  { createRoomResult := fun _ => Except.ok ("!new:x", false)
    genAuthToken := "123456"
    sendEncryptedResult := fun _ => none
    sendPlainResult := fun _ => none
    sendTextResult := fun _ => none
    storeMatrixUsersResult := none
    langCatalog := [("en-us", "English"), ("fr", "French")]
    strGet := fun _ _ => "welcome"
    strTemplate := fun _ _ => "langmsg"
    markdownToHTML := fun s => s }

/-- A baseline daemon state: room `!r1:x` paired with alice, plaintext. -/
def aliceUser : MatrixUser :=
  { RoomID := "!r1:x", Encrypted := false, UserID := "@alice:x",
    Lang := "en-us", Contact := true }

def dBase : DaemonState :=
  { Stopped := false, ShutdownChannelOpen := true, userID := "@bot:x",
    tokens := [], languages := [("!r1:x", "en-us")], isEncrypted := [],
    storageMatrix := [("!r1:x", aliceUser)], start := 10 }

/-- An event from alice switching room `!r1:x` to French. -/
def evtLangFr : IncomingEvent :=
  { Timestamp := 11, Sender := "@alice:x", RoomID := "!r1:x",
    Content := [("body", RawValue.str "!lang fr")] }

/-- State `dBase` with room `!r1:x` flagged encrypted in the cache. -/
def dEnc : DaemonState := { dBase with isEncrypted := [("!r1:x", true)] }

def msgHi : Message := { Text := "hi", Markdown := "" }

def contentHi : MessageEventContent :=
  { MsgType := "m.text", Body := "hi", FormattedBody := "", Format := "" }

/-- Environment `envOk` but room creation fails. -/
def envRoomFail : Env :=
  { envOk with createRoomResult := fun _ => Except.error "room refused" }

/-- Environment `envOk` but every plaintext delivery fails. -/
def envSendFail : Env :=
  { envOk with sendPlainResult := fun _ => some "senderr" }

/-- Environment `envOk` but plaintext delivery to room `!r1:x` fails. -/
def envPlainR1Fails : Env :=
  { envOk with
    sendPlainResult := fun r => if r = "!r1:x" then some "boom" else none }

/-- A second paired user in another (plaintext) room. -/
def carolUser : MatrixUser :=
  { RoomID := "!r2:x", Encrypted := false, UserID := "@carol:x",
    Lang := "en-us", Contact := false }

/-- A pending token already registered under the PIN `envOk` generates. -/
def staleTok : UnverifiedUser :=
  { Verified := true,
    User := { RoomID := "!old:x", Encrypted := false, UserID := "@dave:x",
              Lang := "en-us", Contact := false } }

def dPinClash : DaemonState := { dBase with tokens := [("123456", staleTok)] }

/-- State `dBase` after one successful `Shutdown`. -/
def dShutdownDone : DaemonState :=
  { dBase with Stopped := true, ShutdownChannelOpen := false }

/-! ## Claim theorems -/

/-- Claim C8: every incoming event with timestamp strictly below the daemon
start time is discarded by `handleMessage` without invoking any command
handler and without mutating any state: the state is returned unchanged and
the effect trace is empty. -/
theorem handleMessage_discards_old_events (env : Env) (d : DaemonState)
    (evt : IncomingEvent) (h : evt.Timestamp < d.start) :
    handleMessage env d evt = some (d, []) := by
  simp [handleMessage, h]

theorem handleMessage_discards_old_events_witness :
    handleMessage envOk dBase
      { Timestamp := 7, Sender := "@alice:x", RoomID := "!r1:x",
        Content := [("body", RawValue.str "!lang fr")] } = some (dBase, []) := by
  exact handleMessage_discards_old_events _ _ _ (by decide)

/-- Claim C9: `handleMessage` is total only on events whose content carries a
string-valued body: if an event passes the timestamp and sender filters but
its content map has no `body` entry or a non-string one, the unchecked type
assertion panics (modelled as `none`). -/
theorem handleMessage_panics_on_missing_body (env : Env) (d : DaemonState)
    (evt : IncomingEvent) (hts : ¬ evt.Timestamp < d.start)
    (hsender : evt.Sender ≠ d.userID)
    (hbody : ∀ s, evt.Content.lookup "body" ≠ some (RawValue.str s)) :
    handleMessage env d evt = none := by
  unfold handleMessage
  rw [if_neg hts, if_neg hsender]
  cases hlook : evt.Content.lookup "body" with
  | none => rfl
  | some v =>
    cases v with
    | str s => exact absurd hlook (hbody s)
    | other => rfl

theorem handleMessage_panics_on_missing_body_witness :
    handleMessage envOk dBase
      { Timestamp := 11, Sender := "@alice:x", RoomID := "!r1:x",
        Content := [("body", RawValue.other)] } = none := by
  exact handleMessage_panics_on_missing_body _ _ _ (by decide) (by decide)
    (by intro s h; simp [List.lookup] at h)

/-- Claim C7: a `!lang <code>` command whose code is not a recognized
language is silently ignored: the daemon state is returned unchanged and the
only effect is the stdout debug print — no reply is sent and nothing is
stored or logged. -/
theorem handleMessage_invalid_lang_noop (env : Env) (d : DaemonState)
    (evt : IncomingEvent) (body code : String)
    (hts : ¬ evt.Timestamp < d.start) (hsender : evt.Sender ≠ d.userID)
    (hbody : evt.Content.lookup "body" = some (RawValue.str body))
    (hsplit : stringsSplitSpace body = ["!lang", code]) (hcode : code ≠ "")
    (hinvalid : env.langCatalog.lookup code = none) :
    handleMessage env d evt = some (d, [Effect.printRecv]) := by
  unfold handleMessage
  rw [if_neg hts, if_neg hsender, hbody]
  simp only [hsplit]
  simp [commandLang, hcode, hinvalid]

theorem handleMessage_invalid_lang_noop_witness :
    handleMessage envOk dBase
      { Timestamp := 11, Sender := "@alice:x", RoomID := "!r1:x",
        Content := [("body", RawValue.str "!lang xx")] } =
      some (dBase, [Effect.printRecv]) := by
  exact handleMessage_invalid_lang_noop _ _ _ "!lang xx" "xx" (by decide)
    (by decide) (by decide) (by decide) (by decide) (by decide)

theorem commandLang_valid (env : Env) (d : DaemonState) (evt : IncomingEvent)
    (code lang name : String) (u : MatrixUser)
    (hcode : code ≠ "") (hvalid : env.langCatalog.lookup code = some name)
    (hstore : d.storageMatrix.lookup evt.RoomID = some u) :
    ∃ st effs, commandLang env d evt code lang = (st, effs) ∧
      st.languages.lookup evt.RoomID = some code ∧
      st.storageMatrix.lookup evt.RoomID = some { u with Lang := code } ∧
      effs.count Effect.storeMatrixUsers = 1 := by
  cases hsm : env.storeMatrixUsersResult with
  | none =>
    refine
      ⟨{ d with
           languages := mapInsert d.languages evt.RoomID code,
           storageMatrix :=
             mapInsert d.storageMatrix evt.RoomID { u with Lang := code } },
       [Effect.storeMatrixUsers], ?_,
       lookup_mapInsert _ _ _, lookup_mapInsert _ _ _, by simp⟩
    simp only [commandLang, if_neg hcode, hvalid, Option.isNone_some,
      Bool.false_eq_true, if_false, hstore, hsm]
  | some e =>
    refine
      ⟨{ d with
           languages := mapInsert d.languages evt.RoomID code,
           storageMatrix :=
             mapInsert d.storageMatrix evt.RoomID { u with Lang := code } },
       [Effect.storeMatrixUsers,
         Effect.logError ("Matrix: Failed to store Matrix users: " ++ e)], ?_,
       lookup_mapInsert _ _ _, lookup_mapInsert _ _ _, by simp⟩
    simp only [commandLang, if_neg hcode, hvalid, Option.isNone_some,
      Bool.false_eq_true, if_false, hstore, hsm]

/-- Claim C6: handling an event whose body is a `!lang` command with a
recognized code makes the room's cached language that code, updates the
stored binding's language, and invokes the persistence collaborator
(`storeMatrixUsers`) exactly once. -/
theorem handleMessage_valid_lang_updates (env : Env) (d : DaemonState)
    (evt : IncomingEvent) (body code name : String) (u : MatrixUser)
    (hts : ¬ evt.Timestamp < d.start) (hsender : evt.Sender ≠ d.userID)
    (hbody : evt.Content.lookup "body" = some (RawValue.str body))
    (hsplit : stringsSplitSpace body = ["!lang", code]) (hcode : code ≠ "")
    (hvalid : env.langCatalog.lookup code = some name)
    (hstore : d.storageMatrix.lookup evt.RoomID = some u) :
    ∃ st effs, handleMessage env d evt = some (st, effs) ∧
      st.languages.lookup evt.RoomID = some code ∧
      st.storageMatrix.lookup evt.RoomID = some { u with Lang := code } ∧
      effs.count Effect.storeMatrixUsers = 1 := by
  obtain ⟨st, effs, heq, h1, h2, h3⟩ :=
    commandLang_valid env d evt code
      (match d.languages.lookup evt.RoomID with
        | some l => if (env.langCatalog.lookup l).isSome then l else "en-us"
        | none => "en-us") name u hcode hvalid hstore
  refine ⟨st, Effect.printRecv :: effs, ?_, h1, h2, ?_⟩
  · unfold handleMessage
    rw [if_neg hts, if_neg hsender, hbody]
    simp only [hsplit, heq]
  · simpa using h3

theorem handleMessage_valid_lang_updates_witness :
    ∃ st effs,
      handleMessage envOk dBase evtLangFr = some (st, effs) ∧
      st.languages.lookup "!r1:x" = some "fr" ∧
      st.storageMatrix.lookup "!r1:x" = some { aliceUser with Lang := "fr" } ∧
      effs.count Effect.storeMatrixUsers = 1 := by
  exact handleMessage_valid_lang_updates envOk dBase evtLangFr "!lang fr" "fr"
    "French" aliceUser (by decide) (by decide) (by decide) (by decide)
    (by decide) (by decide) (by decide)

theorem deliverOne_no_plain (env : Env) (d : DaemonState) (roomID : RoomID)
    (h : d.isEncrypted.lookup roomID = some true)
    (content : MessageEventContent) (user : MatrixUser) (body : String) :
    Effect.sendPlain roomID body ∉ (deliverOne env d content user).2 := by
  unfold deliverOne send
  by_cases henc : user.Encrypted
  · simp [henc]
  · simp only [henc, Bool.false_eq_true, if_false]
    cases hl : d.isEncrypted.lookup user.RoomID with
    | none =>
      simp only [List.mem_singleton, Effect.sendPlain.injEq, not_and]
      rintro rfl
      rw [h] at hl
      exact Option.noConfusion hl
    | some b =>
      cases b with
      | true => simp
      | false =>
        simp only [List.mem_singleton, Effect.sendPlain.injEq, not_and]
        rintro rfl
        rw [h] at hl
        exact Bool.noConfusion (Option.some.inj hl)

theorem sendToUsers_no_plain (env : Env) (d : DaemonState) (roomID : RoomID)
    (h : d.isEncrypted.lookup roomID = some true)
    (content : MessageEventContent) (users : List MatrixUser) (body : String) :
    Effect.sendPlain roomID body ∉ (sendToUsers env d content users).2 := by
  induction users with
  | nil => simp [sendToUsers]
  | cons user rest ih =>
    have hu := deliverOne_no_plain env d roomID h content user body
    rcases hD : deliverOne env d content user with ⟨f, effs⟩
    rw [hD] at hu
    cases f with
    | some e =>
      simp only [sendToUsers, hD]
      exact hu
    | none =>
      simp only [sendToUsers, hD, List.mem_append]
      rintro (hmem | hmem)
      · exact hu hmem
      · exact ih hmem

/-- Claim C1: when a room's cached encrypted flag is true, both delivery
entry points route through the encrypted path: `send` calls only
`SendEncrypted` for that room, and no `Send` call ever emits a plaintext
delivery for that room. -/
theorem sticky_encryption (env : Env) (d : DaemonState) (roomID : RoomID)
    (h : d.isEncrypted.lookup roomID = some true) :
    (∀ content : MessageEventContent,
      send env d content roomID =
        (env.sendEncryptedResult roomID,
          [Effect.sendEncrypted roomID content.Body])) ∧
    (∀ (message : Message) (users : List MatrixUser) (body : String),
      Effect.sendPlain roomID body ∉ (Send env d message users).2) := by
  constructor
  · intro content
    simp [send, h]
  · intro message users body
    unfold Send
    exact sendToUsers_no_plain env d roomID h _ users body

theorem sticky_encryption_witness :
    dEnc.isEncrypted.lookup "!r1:x" = some true ∧
    send envOk dEnc contentHi "!r1:x" =
      (none, [Effect.sendEncrypted "!r1:x" "hi"]) ∧
    Effect.sendPlain "!r1:x" "hi" ∉ (Send envOk dEnc msgHi [aliceUser]).2 := by
  have H := sticky_encryption envOk dEnc "!r1:x" (by decide)
  exact ⟨by decide, H.1 contentHi, H.2 msgHi [aliceUser] "hi"⟩

theorem routeErr_tokens (env : Env) (d : DaemonState)
    (tk : List (String × UnverifiedUser)) (roomID : RoomID) :
    routeErr env { d with tokens := tk } roomID = routeErr env d roomID := rfl

/-- Claim C5: `SendStart` returns true exactly when both room creation and
the welcome send succeed; whenever it returns false, an error has been
logged. -/
theorem sendStart_success_iff (env : Env) (d : DaemonState) (userID : UserID) :
    ((SendStart env d userID).1 = true ↔
      ∃ roomID encrypted,
        env.createRoomResult userID = Except.ok (roomID, encrypted) ∧
        routeErr env d roomID = none) ∧
    ((SendStart env d userID).1 = false →
      ∃ m, Effect.logError m ∈ (SendStart env d userID).2.2) := by
  cases hcr : env.createRoomResult userID with
  | error e =>
    constructor
    · constructor
      · intro htrue
        simp only [SendStart, hcr] at htrue
        exact Bool.noConfusion htrue
      · rintro ⟨r2, e2, hcr2, hre2⟩
        exact Except.noConfusion hcr2
    · intro _
      refine ⟨"Failed to create room for user \"" ++ userID ++ "\": " ++ e, ?_⟩
      simp [SendStart, hcr]
  | ok p =>
    obtain ⟨roomID, encrypted⟩ := p
    cases hre : routeErr env d roomID with
    | none =>
      constructor
      · constructor
        · intro _
          exact ⟨roomID, encrypted, rfl, hre⟩
        · intro _
          simp [SendStart, hcr, send_fst, routeErr_tokens, hre]
      · intro hfalse
        simp only [SendStart, hcr, send_fst, routeErr_tokens, hre] at hfalse
        exact Bool.noConfusion hfalse
    | some e =>
      constructor
      · constructor
        · intro htrue
          simp only [SendStart, hcr, send_fst, routeErr_tokens, hre] at htrue
          exact Bool.noConfusion htrue
        · rintro ⟨r2, e2, hcr2, hre2⟩
          obtain ⟨h1, h2⟩ : roomID = r2 ∧ encrypted = e2 := by
            have h3 := Except.ok.inj hcr2
            exact ⟨congrArg Prod.fst h3, congrArg Prod.snd h3⟩
          subst h1
          rw [hre] at hre2
          exact Option.noConfusion hre2
      · intro _
        refine ⟨"Matrix: Failed to send welcome message to \"" ++ userID ++
          "\": " ++ e, ?_⟩
        simp only [SendStart, hcr, send_fst, routeErr_tokens, hre]
        simp

theorem sendStart_success_iff_witness :
    (SendStart envOk dBase "@carol:x").1 = true ∧
    ∃ m, Effect.logError m ∈ (SendStart envRoomFail dBase "@carol:x").2.2 := by
  constructor
  · exact (sendStart_success_iff envOk dBase "@carol:x").1.mpr
      ⟨"!new:x", false, rfl, rfl⟩
  · exact (sendStart_success_iff envRoomFail dBase "@carol:x").2 (by decide)

/-- Claim C10: when room creation succeeds but the welcome send fails,
`SendStart` returns false yet the generated PIN's pending token stays in the
tokens map — no rollback happens. -/
theorem sendStart_failure_keeps_token (env : Env) (d : DaemonState)
    (userID : UserID) (roomID : RoomID) (encrypted : Bool) (e : String)
    (hcr : env.createRoomResult userID = Except.ok (roomID, encrypted))
    (hsend : routeErr env d roomID = some e) :
    (SendStart env d userID).1 = false ∧
    (SendStart env d userID).2.1.tokens.lookup env.genAuthToken =
      some { Verified := false,
             User := { RoomID := roomID, Encrypted := encrypted,
                       UserID := userID, Lang := "en-us", Contact := false } } := by
  constructor
  · simp [SendStart, hcr, send_fst, routeErr_tokens, hsend]
  · simp only [SendStart, hcr, send_fst, routeErr_tokens, hsend]
    exact lookup_mapInsert _ _ _

theorem sendStart_failure_keeps_token_witness :
    (SendStart envSendFail dBase "@carol:x").1 = false ∧
    (SendStart envSendFail dBase "@carol:x").2.1.tokens.lookup "123456" =
      some { Verified := false,
             User := { RoomID := "!new:x", Encrypted := false,
                       UserID := "@carol:x", Lang := "en-us",
                       Contact := false } } := by
  exact sendStart_failure_keeps_token envSendFail dBase "@carol:x" "!new:x"
    false "senderr" rfl rfl

/-- Claim C2 counterexample: the PIN generator can return a PIN that is
already pending (`dPinClash` holds `staleTok` under `"123456"`, the very
PIN the oracle generates); `SendStart` still succeeds and silently
overwrites the pending token, so issuance does not require the PIN to be
absent beforehand. -/
theorem sendStart_pin_collision_cex :
    dPinClash.tokens.lookup envOk.genAuthToken = some staleTok ∧
    (SendStart envOk dPinClash "@carol:x").1 = true ∧
    (SendStart envOk dPinClash "@carol:x").2.1.tokens.lookup "123456" =
      some { Verified := false,
             User := { RoomID := "!new:x", Encrypted := false,
                       UserID := "@carol:x", Lang := "en-us",
                       Contact := false } } := by
  refine ⟨rfl, rfl, ?_⟩
  decide

/-- Claim C2 amended: `SendStart` performs no uniqueness check on the
generated PIN: whenever room creation succeeds, the PIN is stored
unconditionally in the tokens map, overwriting any pending token already
registered under it. -/
theorem sendStart_pin_stored_unconditionally (env : Env) (d : DaemonState)
    (userID : UserID) (roomID : RoomID) (encrypted : Bool)
    (hcr : env.createRoomResult userID = Except.ok (roomID, encrypted)) :
    (SendStart env d userID).2.1.tokens.lookup env.genAuthToken =
      some { Verified := false,
             User := { RoomID := roomID, Encrypted := encrypted,
                       UserID := userID, Lang := "en-us",
                       Contact := false } } := by
  cases hre : routeErr env d roomID with
  | none =>
    simp only [SendStart, hcr, send_fst, routeErr_tokens, hre]
    exact lookup_mapInsert _ _ _
  | some e =>
    simp only [SendStart, hcr, send_fst, routeErr_tokens, hre]
    exact lookup_mapInsert _ _ _

theorem sendStart_pin_stored_unconditionally_witness :
    envOk.createRoomResult "@carol:x" = Except.ok ("!new:x", false) ∧
    (SendStart envOk dPinClash "@carol:x").2.1.tokens.lookup
      envOk.genAuthToken =
      some { Verified := false,
             User := { RoomID := "!new:x", Encrypted := false,
                       UserID := "@carol:x", Lang := "en-us",
                       Contact := false } } :=
  ⟨rfl, sendStart_pin_stored_unconditionally envOk dPinClash "@carol:x"
    "!new:x" false rfl⟩

/-- Claim C4 counterexample: `Shutdown` is not idempotent: the first call
succeeds, but a second call closes an already-closed channel, which panics
in Go (modelled as `none`). -/
theorem shutdown_second_call_panics_cex :
    (Shutdown dBase).1 = some dShutdownDone ∧
    (Shutdown dShutdownDone).1 = none := by
  constructor <;> rfl

/-- Claim C4 amended: a first `Shutdown` (shutdown channel still open)
stops the crypto layer and the sync loop, sets `Stopped` and closes the
shutdown channel; but `Shutdown` is not idempotent: a second call panics by
closing the already-closed channel. -/
theorem shutdown_once_then_second_call_panics (d : DaemonState)
    (h : d.ShutdownChannelOpen = true) :
    Shutdown d =
      (some { d with Stopped := true, ShutdownChannelOpen := false },
        [Effect.cryptoShutdown, Effect.stopSync]) ∧
    (Shutdown { d with Stopped := true, ShutdownChannelOpen := false }).1 =
      none := by
  constructor
  · simp [Shutdown, h]
  · simp [Shutdown]

theorem shutdown_once_then_second_call_panics_witness :
    Shutdown dBase =
      (some dShutdownDone, [Effect.cryptoShutdown, Effect.stopSync]) ∧
    (Shutdown dShutdownDone).1 = none :=
  shutdown_once_then_second_call_panics dBase rfl

/-- Claim C3 counterexample: with two plaintext recipients where delivery to
the first fails, `Send` returns the error but the trace contains only the
first delivery attempt — no attempt is made for the second recipient, so
delivery is not independent per recipient. -/
theorem send_not_independent_cex :
    Send envPlainR1Fails dBase msgHi [aliceUser, carolUser] =
      (some "boom", [Effect.sendPlain "!r1:x" "hi"]) := by
  decide

theorem sendToUsers_stops (env : Env) (d : DaemonState)
    (content : MessageEventContent) (pre : List MatrixUser) (u : MatrixUser)
    (rest : List MatrixUser) (e : String)
    (hpre : ∀ v ∈ pre, deliverErr env d v = none)
    (hu : deliverErr env d u = some e) :
    (sendToUsers env d content (pre ++ u :: rest)).1 = some e ∧
    sendToUsers env d content (pre ++ u :: rest) =
      sendToUsers env d content (pre ++ [u]) := by
  induction pre with
  | nil =>
    rcases hD : deliverOne env d content u with ⟨f, effs⟩
    have hf : f = some e := by
      have h1 := deliverOne_fst env d content u
      rw [hD] at h1
      rw [← h1] at hu
      exact hu
    subst hf
    simp [sendToUsers, hD]
  | cons v pres ih =>
    have hv : deliverErr env d v = none := hpre v (by simp)
    rcases hD : deliverOne env d content v with ⟨f, effs⟩
    have hf : f = none := by
      have h1 := deliverOne_fst env d content v
      rw [hD] at h1
      rw [← h1] at hv
      exact hv
    subst hf
    have hih := ih (fun w hw => hpre w (by simp [hw]))
    constructor
    · simp only [List.cons_append, sendToUsers, hD]
      exact hih.1
    · simp only [List.cons_append, sendToUsers, hD]
      exact congrArg (fun r => (r.1, effs ++ r.2)) hih.2

/-- Claim C3 amended: `Send` attempts deliveries strictly in order and
stops at the first failure: when every recipient before `u` succeeds and
`u`'s delivery fails with error `e`, `Send` returns `some e`, and the
result (error and effect trace alike) equals that of sending to the prefix
ending at `u` — no delivery is attempted for the remaining recipients. -/
theorem Send_stops_at_first_error (env : Env) (d : DaemonState)
    (message : Message) (pre : List MatrixUser) (u : MatrixUser)
    (rest : List MatrixUser) (e : String)
    (hpre : ∀ v ∈ pre, deliverErr env d v = none)
    (hu : deliverErr env d u = some e) :
    (Send env d message (pre ++ u :: rest)).1 = some e ∧
    Send env d message (pre ++ u :: rest) =
      Send env d message (pre ++ [u]) := by
  unfold Send
  exact sendToUsers_stops env d _ pre u rest e hpre hu

theorem Send_stops_at_first_error_witness :
    (Send envPlainR1Fails dBase msgHi [carolUser, aliceUser, carolUser]).1 =
      some "boom" ∧
    Send envPlainR1Fails dBase msgHi [carolUser, aliceUser, carolUser] =
      Send envPlainR1Fails dBase msgHi [carolUser, aliceUser] := by
  exact Send_stops_at_first_error envPlainR1Fails dBase msgHi [carolUser]
    aliceUser [carolUser] "boom" (by decide) (by decide)

end JfaGo
